import Mathlib

/-!
Verification of the sd-runpod-worker client core: a shallow embedding of
`src/client/caching_img2img.py`, `src/client/parallel_scene_img2img.py`
and `src/client/parallel_client.py`, together with theorems settling the
specification claims about cache-key derivation, the disk cache, the
retrying remote-call wrapper, the worker pool and progress accounting.

Machine integers are modelled as `Nat` with explicit reduction mod 2^32
where the Python code relies on 32-bit hash arithmetic; byte strings are
`List Nat` (each element < 256); Python `float` time/rate arithmetic is
modelled over `ℚ`; fallible code returns `Except`.
-/

namespace SdRunpod

/-- Bytes of a file or payload: a list of byte values. -/
abbrev Bytes := List Nat

/-! ### 32-bit helpers (Python's hashlib arithmetic is 32-bit) -/

/-- The modulus 2^32 for 32-bit words. -/
def M32 : Nat := 4294967296

/-- Reduce to a 32-bit word. -/
def w32 (n : Nat) : Nat := n % M32

/-- Rotate a 32-bit word right by `n` (0 ≤ n < 32). -/
def rotr32 (x n : Nat) : Nat := w32 ((x >>> n) ||| (x <<< (32 - n)))

/-- Rotate a 32-bit word left by `n` (0 ≤ n < 32). -/
def rotl32 (x n : Nat) : Nat := w32 ((x <<< n) ||| (x >>> (32 - n)))

/-- Bitwise complement of a 32-bit word (input assumed < 2^32). -/
def not32 (x : Nat) : Nat := 4294967295 - x

/-! ### Byte/word conversions -/

/-- Big-endian bytes of `n`, exactly `k` bytes. -/
def beBytes : Nat → Nat → List Nat
  | 0, _ => []
  | k + 1, n => beBytes k (n >>> 8) ++ [n % 256]

/-- Little-endian bytes of `n`, exactly `k` bytes. -/
def leBytes : Nat → Nat → List Nat
  | 0, _ => []
  | k + 1, n => n % 256 :: leBytes k (n >>> 8)

/-- Big-endian 32-bit words from bytes (length a multiple of 4). -/
def beWords : List Nat → List Nat
  | b0 :: b1 :: b2 :: b3 :: rest =>
      (((b0 * 256 + b1) * 256 + b2) * 256 + b3) :: beWords rest
  | _ => []

/-- Little-endian 32-bit words from bytes (length a multiple of 4). -/
def leWords : List Nat → List Nat
  | b0 :: b1 :: b2 :: b3 :: rest =>
      (b0 + 256 * (b1 + 256 * (b2 + 256 * b3))) :: leWords rest
  | _ => []

/-- Split a list into chunks of `k` elements (fuel-driven, fuel = length). -/
def chunksAux (k : Nat) : Nat → List α → List (List α)
  | 0, _ => []
  | _, [] => []
  | fuel + 1, l => l.take k :: chunksAux k fuel (l.drop k)

/-- Split a list into chunks of `k` elements. -/
def chunks (k : Nat) (l : List α) : List (List α) := chunksAux k l.length l

/-! ### Hex rendering -/

/-- Lowercase hex digit characters. -/
def hexAlphabet : List Char := "0123456789abcdef".data

/-- The `n`-th lowercase hex digit. -/
def hexChar (n : Nat) : Char := hexAlphabet.getD n '0'

/-- Two hex chars of a byte, high nibble first. -/
def hexByte (b : Nat) : List Char := [hexChar (b / 16), hexChar (b % 16)]

/-- Eight hex chars of a 32-bit word, big-endian nibble order. -/
def hexWord32 (n : Nat) : List Char :=
  (beBytes 4 n).flatMap hexByte

/-! ### SHA-256 (as used by `hashlib.sha256` in the source) -/

/-- SHA-256 round constants. -/
def sha256K : List Nat :=
  [1116352408, 1899447441, 3049323471, 3921009573, 961987163, 1508970993,
   2453635748, 2870763221, 3624381080, 310598401, 607225278, 1426881987,
   1925078388, 2162078206, 2614888103, 3248222580, 3835390401, 4022224774,
   264347078, 604807628, 770255983, 1249150122, 1555081692, 1996064986,
   2554220882, 2821834349, 2952996808, 3210313671, 3336571891, 3584528711,
   113926993, 338241895, 666307205, 773529912, 1294757372, 1396182291,
   1695183700, 1986661051, 2177026350, 2456956037, 2730485921, 2820302411,
   3259730800, 3345764771, 3516065817, 3600352804, 4094571909, 275423344,
   430227734, 506948616, 659060556, 883997877, 958139571, 1322822218,
   1537002063, 1747873779, 1955562222, 2024104815, 2227730452, 2361852424,
   2428436474, 2756734187, 3204031479, 3329325298]

/-- SHA-256 initial hash state. -/
def sha256H0 : List Nat :=
  [1779033703, 3144134277, 1013904242, 2773480762, 1359893119, 2600822924,
   528734635, 1541459225]

/-- SHA-256 / MD5 message padding: append 0x80, zeros, then the 64-bit
bit-length rendered by `lenBytes` (big-endian for SHA-256, little-endian
for MD5). -/
def padMessage (lenBytes : Nat → List Nat) (msg : List Nat) : List Nat :=
  let len := msg.length
  let zeros := (119 - len % 64) % 64
  msg ++ 128 :: List.replicate zeros 0 ++ lenBytes (len * 8)

/-- Extend a 16-word SHA-256 message schedule by `n` words. -/
def sha256Extend : Nat → List Nat → List Nat
  | 0, w => w
  | n + 1, w =>
      let i := w.length
      let a := w.getD (i - 15) 0
      let b := w.getD (i - 2) 0
      let s0 := (rotr32 a 7) ^^^ (rotr32 a 18) ^^^ (a >>> 3)
      let s1 := (rotr32 b 17) ^^^ (rotr32 b 19) ^^^ (b >>> 10)
      let nw := w32 (w.getD (i - 16) 0 + s0 + w.getD (i - 7) 0 + s1)
      sha256Extend n (w ++ [nw])

/-- One SHA-256 compression round: state is the 8-word list [a..h]. -/
def sha256Round (st : List Nat) (kw : Nat × Nat) : List Nat :=
  match st with
  | [a, b, c, d, e, f, g, h] =>
      let s1 := (rotr32 e 6) ^^^ (rotr32 e 11) ^^^ (rotr32 e 25)
      let ch := (e &&& f) ^^^ ((not32 e) &&& g)
      let t1 := w32 (h + s1 + ch + kw.1 + kw.2)
      let s0 := (rotr32 a 2) ^^^ (rotr32 a 13) ^^^ (rotr32 a 22)
      let mj := (a &&& b) ^^^ (a &&& c) ^^^ (b &&& c)
      let t2 := w32 (s0 + mj)
      [w32 (t1 + t2), a, b, c, w32 (d + t1), e, f, g]
  | other => other

/-- SHA-256 compression of one 64-byte block into the running hash. -/
def sha256Block (hstate : List Nat) (block : List Nat) : List Nat :=
  let ws := sha256Extend 48 (beWords block)
  let st := (sha256K.zip ws).foldl sha256Round hstate
  (hstate.zip st).map (fun p => w32 (p.1 + p.2))

/-- SHA-256 digest state of a byte message. -/
def sha256State (msg : List Nat) : List Nat :=
  (chunks 64 (padMessage (beBytes 8) msg)).foldl sha256Block sha256H0

/-- Lowercase hex digest of SHA-256, as `hashlib.sha256(x).hexdigest()`. -/
def sha256hexChars (msg : List Nat) : List Char :=
  (sha256State msg).flatMap hexWord32

/-! ### MD5 (as used by `hashlib.md5` in `_generate_cache_key`) -/

/-- MD5 sine-derived constants. -/
def md5K : List Nat :=
  [3614090360, 3905402710, 606105819, 3250441966, 4118548399, 1200080426,
   2821735955, 4249261313, 1770035416, 2336552879, 4294925233, 2304563134,
   1804603682, 4254626195, 2792965006, 1236535329, 4129170786, 3225465664,
   643717713, 3921069994, 3593408605, 38016083, 3634488961, 3889429448,
   568446438, 3275163606, 4107603335, 1163531501, 2850285829, 4243563512,
   1735328473, 2368359562, 4294588738, 2272392833, 1839030562, 4259657740,
   2763975236, 1272893353, 4139469664, 3200236656, 681279174, 3936430074,
   3572445317, 76029189, 3654602809, 3873151461, 530742520, 3299628645,
   4096336452, 1126891415, 2878612391, 4237533241, 1700485571, 2399980690,
   4293915773, 2240044497, 1873313359, 4264355552, 2734768916, 1309151649,
   4149444226, 3174756917, 718787259, 3951481745]

/-- MD5 per-round left-rotation amounts. -/
def md5S : List Nat :=
  [7, 12, 17, 22, 7, 12, 17, 22, 7, 12, 17, 22, 7, 12, 17, 22,
   5, 9, 14, 20, 5, 9, 14, 20, 5, 9, 14, 20, 5, 9, 14, 20,
   4, 11, 16, 23, 4, 11, 16, 23, 4, 11, 16, 23, 4, 11, 16, 23,
   6, 10, 15, 21, 6, 10, 15, 21, 6, 10, 15, 21, 6, 10, 15, 21]

/-- One MD5 operation, `i` the operation index, `m` the 16 block words,
state `[a, b, c, d]`. -/
def md5Op (m : List Nat) (st : List Nat) (i : Nat) : List Nat :=
  match st with
  | [a, b, c, d] =>
      let fg : Nat × Nat :=
        if i < 16 then ((b &&& c) ||| ((not32 b) &&& d), i)
        else if i < 32 then ((d &&& b) ||| ((not32 d) &&& c), (5 * i + 1) % 16)
        else if i < 48 then (b ^^^ c ^^^ d, (3 * i + 5) % 16)
        else (c ^^^ (b ||| (not32 d)), (7 * i) % 16)
      let f := w32 (fg.1 + a + md5K.getD i 0 + m.getD fg.2 0)
      [d, w32 (b + rotl32 f (md5S.getD i 0)), b, c]
  | other => other

/-- MD5 compression of one 64-byte block into the running state. -/
def md5Block (st : List Nat) (block : List Nat) : List Nat :=
  let m := leWords block
  let st2 := (List.range 64).foldl (md5Op m) st
  (st.zip st2).map (fun p => w32 (p.1 + p.2))

/-- MD5 initial state. -/
def md5Init : List Nat := [1732584193, 4023233417, 2562383102, 271733878]

/-- MD5 digest state of a byte message. -/
def md5State (msg : List Nat) : List Nat :=
  (chunks 64 (padMessage (leBytes 8) msg)).foldl md5Block md5Init

/-- Lowercase hex digest of MD5, as `hashlib.md5(x).hexdigest()`:
the state words are emitted little-endian byte by byte. -/
def md5hexChars (msg : List Nat) : List Char :=
  ((md5State msg).flatMap (leBytes 4)).flatMap hexByte

/-! ### UTF-8 encoding (Python's `str.encode("utf-8")`) -/

/-- UTF-8 bytes of one character. -/
def utf8EncodeCharNat (c : Char) : List Nat :=
  let n := c.toNat
  if n < 128 then [n]
  else if n < 2048 then [192 + n / 64, 128 + n % 64]
  else if n < 65536 then [224 + n / 4096, 128 + n / 64 % 64, 128 + n % 64]
  else [240 + n / 262144, 128 + n / 4096 % 64, 128 + n / 64 % 64, 128 + n % 64]

/-- UTF-8 bytes of a string, as Python's `s.encode("utf-8")`. -/
def utf8Bytes (s : String) : List Nat := s.data.flatMap utf8EncodeCharNat

/-! ### Decimal rendering and zero-padding (Python `f"{n:05d}"`) -/

/-- Decimal digit characters of `n`, most significant first. -/
def decChars (n : Nat) : List Char :=
  if n = 0 then ['0'] else (Nat.digits 10 n).reverse.map hexChar

/-- Left-pad with zeros to width `w` (no-op when already at least `w` wide). -/
def zeroPad (w : Nat) (s : List Char) : List Char :=
  List.replicate (w - s.length) '0' ++ s

/-- Python `f"{n:05d}"`: decimal digits of `n`, zero-padded to width 5. -/
def fmt05 (n : Nat) : List Char := zeroPad 5 (decChars n)

/-! ### Path and filename helpers from the source -/

/-- Model of `os.path.basename`: the part after the last `/`. -/
def basenameChars (l : List Char) : List Char :=
  (l.reverse.takeWhile (fun c => c != '/')).reverse

/-- Python `str.split(sep)` for a one-character separator (no maxsplit):
always returns at least one (possibly empty) part. -/
def pySplit (sep : Char) : List Char → List (List Char)
  | [] => [[]]
  | c :: rest =>
    match pySplit sep rest with
    | [] => [[c]]
    | p :: ps => if c = sep then [] :: p :: ps else (c :: p) :: ps

/-! ### Cache-key derivation

`CachingImg2ImgClient._cache_key` (src/client/caching_img2img.py:54-64)
extracts the frame number from the basename of the image path with the
anchored regular expression `frame_(\d+)` (falling back to `"unknown"`),
hashes the prompt with SHA-256 truncated to 8 hex characters and joins the
parts into `frame_{frame number}_{prompt hash}.png`.

`get_cache_key` (src/client/parallel_client.py:51-53 and 154-156) derives
the same shape directly from a numeric frame id with `f"{n:05d}"` padding.
-/

/-- The capture of the anchored Python regex `frame_(\d+)` on a basename:
the maximal digit run after a literal `frame_` at the start, or the source's
`"unknown"` fallback when the regex does not match. `\d` is modelled as the
ASCII digit class. -/
def frameNumberOf (basename : List Char) : List Char :=
  if basename.take 6 = "frame_".data then
    let digits := (basename.drop 6).takeWhile Char.isDigit
    if digits.isEmpty then "unknown".data else digits
  else "unknown".data

/-- The method `CachingImg2ImgClient._cache_key(image_path, prompt)`. -/
def cache_key (imagePath prompt : String) : String :=
  String.mk ("frame_".data ++ frameNumberOf (basenameChars imagePath.data)
    ++ '_' :: (sha256hexChars (utf8Bytes prompt)).take 8 ++ ".png".data)

/-- The helper `get_cache_key(frame_number, prompt)` from src/client/parallel_client.py. -/
def get_cache_key (frameNumber : Nat) (prompt : String) : String :=
  String.mk ("frame_".data ++ fmt05 frameNumber
    ++ '_' :: (sha256hexChars (utf8Bytes prompt)).take 8 ++ ".png".data)

/-- The method `CachingImg2ImgClient._generate_cache_key(prompt)`
(src/client/caching_img2img.py:141-154): the full 32-character MD5 hex
digest of the prompt. -/
def generate_cache_key (prompt : String) : String :=
  String.mk (md5hexChars (utf8Bytes prompt))

/-! ### Filesystem model

The cache directory and input frames live on disk; we model the visible
file store as an association list from full path to byte content, where a
write shadows earlier entries for the same path. Directory creation
(`os.makedirs`) has no observable effect on this store and is not tracked.
-/

/-- A flat file store: path to byte content, later writes shadow earlier. -/
structure FS where
  files : List (String × Bytes)

/-- Empty file store. -/
def FS.empty : FS := ⟨[]⟩

/-- Lookup as in `os.path.exists` and `open(path, "rb")`: the current content at a path. -/
def FS.lookup (fs : FS) (p : String) : Option Bytes :=
  (fs.files.find? (fun e => e.1 == p)).map (fun e => e.2)

/-- Write as in `open(path, "wb"); write(data)`: replace the content at a path. -/
def FS.write (fs : FS) (p : String) (b : Bytes) : FS :=
  ⟨(p, b) :: fs.files⟩

/-- Python exception values that the modelled code can raise. -/
inductive PyExn where
  /-- Python `TypeError`, e.g. from `os.path.join(None, ...)`. -/
  | typeError : PyExn
  /-- Python `FileNotFoundError` for a missing input file. -/
  | fileNotFound (path : String) : PyExn
  /-- Any failure of the remote call: transport error, non-success HTTP
  status raised by `raise_for_status`, malformed JSON, or a missing
  `output.image` field; carried opaquely with a tag. -/
  | remoteFailure (tag : Nat) : PyExn
deriving DecidableEq

/-- Model of `os.path.join(a, b)` where `a` may be Python `None`:
`os.path.join(None, b)` raises `TypeError`. -/
def osPathJoin (a : Option String) (b : String) : Except PyExn String :=
  match a with
  | none => .error .typeError
  | some d => .ok (d ++ "/" ++ b)

/-! ### `CachingImg2ImgClient.__init__` (src/client/caching_img2img.py:19-24) -/

/-- The registry filename `CachingImg2ImgClient.PROMPT_HASH_FILE`. -/
def PROMPT_HASH_FILE : String := "prompt_hashes.json"

/-- The state a successfully constructed client holds. -/
structure ClientState where
  cache_dir : Option String
  prompt_hash_file : String
  prompt_hashes : List (String × String)

/-- The constructor `CachingImg2ImgClient.__init__(cache_dir)`: stores `cache_dir`, creates
the cache root if truthy, then unconditionally evaluates
`os.path.join(cache_dir, PROMPT_HASH_FILE)` and loads the prompt-hash
registry. JSON decoding of the registry file is abstracted by the `parse`
oracle. -/
def clientInit (cache_dir : Option String) (fs : FS)
    (parse : Bytes → List (String × String)) : Except PyExn ClientState := do
  let phf ← osPathJoin cache_dir PROMPT_HASH_FILE
  let hashes := match fs.lookup phf with
    | some content => parse content
    | none => []
  .ok ⟨cache_dir, phf, hashes⟩

/-! ### `CachingImg2ImgClient.get_or_run` (src/client/caching_img2img.py:69-104)

The remote interaction (`requests.post` + `raise_for_status` + JSON and
base64 decoding of `result['output']['image']`) is abstracted as an oracle
`remote : Nat → Except PyExn Bytes` giving, per attempt number, either the
decoded output bytes or the exception the attempt raises; the request
payload (image bytes, prompt) is the same on every attempt, so it is not a
parameter of the oracle. `time.sleep(retry_delay)` is recorded in the
trace rather than performed. -/

/-- Default of the `max_retries` parameter of `get_or_run`. -/
def DEFAULT_MAX_RETRIES : Nat := 3

/-- Default of the `retry_delay` parameter of `get_or_run` (0.5 seconds). -/
def DEFAULT_RETRY_DELAY : ℚ := 1 / 2

/-- Outcome of the retry loop of `get_or_run`. -/
structure AttemptOut where
  result : Except PyExn Bytes
  fs : FS
  attempts : Nat
  sleeps : List ℚ
  writes : Nat

/-- The `for attempt in range(1, max_retries + 1)` loop of `get_or_run`:
`remaining` counts loop iterations still allowed (initially
`max_retries`), `attempt` is the current 1-based attempt number, `last`
the `last_exception` variable. On success the result is cached (when a
cache path exists) and returned; on failure the loop sleeps
`retry_delay` between consecutive attempts and finally re-raises the last
exception. An exhausted loop that never ran re-raises Python `None`,
which is itself a `TypeError`. -/
def runAttempts (cachePath : Option String) (remote : Nat → Except PyExn Bytes)
    (retryDelay : ℚ) (fs : FS) (attempt : Nat) :
    Nat → Option PyExn → AttemptOut
  | 0, last => ⟨.error (last.getD .typeError), fs, 0, [], 0⟩
  | remaining + 1, _ =>
    match remote attempt with
    | .ok bytes =>
      match cachePath with
      | some p => ⟨.ok bytes, fs.write p bytes, 1, [], 1⟩
      | none => ⟨.ok bytes, fs, 1, [], 0⟩
    | .error e =>
      match remaining with
      | 0 => ⟨.error e, fs, 1, [], 0⟩
      | r + 1 =>
        let rest := runAttempts cachePath remote retryDelay fs (attempt + 1) (r + 1) (some e)
        ⟨rest.result, rest.fs, rest.attempts + 1, retryDelay :: rest.sleeps, rest.writes⟩

/-- Observable outcome of one `get_or_run` call. -/
structure RunOut where
  result : Except PyExn Bytes
  fs : FS
  remoteAttempts : Nat
  sleeps : List ℚ
  cacheWrites : Nat
  cacheChecks : Nat
  servedFromCache : Bool

/-- The method `CachingImg2ImgClient.get_or_run(image_path, prompt, max_retries,
retry_delay)` for a client whose `cache_dir` attribute is `cacheDir`:
when caching is enabled and the cache file exists its bytes are returned
directly; otherwise the input image is opened and the retry loop runs,
caching the decoded result on success. -/
def get_or_run (cacheDir : Option String) (fs : FS) (imagePath prompt : String)
    (remote : Nat → Except PyExn Bytes) (maxRetries : Nat) (retryDelay : ℚ) :
    RunOut :=
  match cacheDir with
  | some d =>
    let cachePath := d ++ "/" ++ cache_key imagePath prompt
    match fs.lookup cachePath with
    | some bytes => ⟨.ok bytes, fs, 0, [], 0, 1, true⟩
    | none =>
      match fs.lookup imagePath with
      | none => ⟨.error (.fileNotFound imagePath), fs, 0, [], 0, 1, false⟩
      | some _ =>
        let a := runAttempts (some cachePath) remote retryDelay fs 1 maxRetries none
        ⟨a.result, a.fs, a.attempts, a.sleeps, a.writes, 1, false⟩
  | none =>
    match fs.lookup imagePath with
    | none => ⟨.error (.fileNotFound imagePath), fs, 0, [], 0, 0, false⟩
    | some _ =>
      let a := runAttempts none remote retryDelay fs 1 maxRetries none
      ⟨a.result, a.fs, a.attempts, a.sleeps, a.writes, 0, false⟩

/-! ### Micro-step model of the cache write (src/client/caching_img2img.py:94-96)

The source writes the cache entry with `open(cache_path, "wb")` followed
by `f.write(output_image_data)` directly at the final path. We decompose
that into fine-grained filesystem operations — the open, which
truncates/creates the file empty, then one operation per byte written —
so that an interruption at any point is the execution of a prefix of the
operation list. -/

/-- One fine-grained filesystem operation of the cache write. -/
inductive WriteOp where
  /-- Truncating open `open(path, "wb")`: create or truncate the file at the path. -/
  | create (path : String) : WriteOp
  /-- Persist one further byte of the payload at the path. -/
  | putByte (path : String) (b : Nat) : WriteOp

/-- Apply one write operation to the file store. -/
def applyOp (fs : FS) : WriteOp → FS
  | .create p => fs.write p []
  | .putByte p b => fs.write p ((fs.lookup p).getD [] ++ [b])

/-- Apply a sequence of write operations. -/
def applyOps (fs : FS) (ops : List WriteOp) : FS := ops.foldl applyOp fs

/-- The operation sequence of the source's cache write: a truncating open
at the final cache path, then the payload bytes. There is no staging file
and no rename. -/
def cacheWriteOps (path : String) (data : Bytes) : List WriteOp :=
  .create path :: data.map (.putByte path)

/-! ### `CachingImg2ImgClient.clear_cache_except`
(src/client/caching_img2img.py:106-139) -/

/-- What the cache-clearing loop decides for one directory entry. -/
inductive FileAction where
  | skip
  | keep
  | remove
deriving DecidableEq

/-- The per-file decision of `clear_cache_except`: split the filename on
`_`; fewer than 3 parts is an unrecognized format (skipped); otherwise the
last part is compared against the set of keys to keep. -/
def clearDecision (keysToKeep : List String) (filename : String) : FileAction :=
  let parts := pySplit '_' filename.data
  if parts.length < 3 then .skip
  else if keysToKeep.contains (String.mk (parts.getLastD [])) then .keep
  else .remove

/-- The method `clear_cache_except(prompts_to_keep, dry_run)` over a directory
listing (regular files only): returns the list of files it removes. With
no cache directory, or in a dry run, nothing is removed. -/
def clear_cache_except (cacheDir : Option String) (promptsToKeep : List String)
    (dryRun : Bool) (listing : List String) : List String :=
  match cacheDir with
  | none => []
  | some _ =>
    if dryRun then []
    else
      let keys := promptsToKeep.map generate_cache_key
      listing.filter (fun fname => clearDecision keys fname = .remove)

/-! ### Progress accounting (src/client/parallel_scene_img2img.py:43-58)

Python float arithmetic on times and rates is modelled over `ℚ`. -/

/-- Python 3 `round` to an integer: round half to even. -/
def pyRound (q : ℚ) : ℤ :=
  if q - ⌊q⌋ < 1 / 2 then ⌊q⌋
  else if 1 / 2 < q - ⌊q⌋ then ⌊q⌋ + 1
  else if Even ⌊q⌋ then ⌊q⌋ else ⌊q⌋ + 1

/-- Format as `time.strftime("%H:%M:%S", time.gmtime(n))` for a non-negative number
of seconds: hours wrap at 24 as in `gmtime`'s hour-of-day field. -/
def formatHMS (n : Nat) : String :=
  String.mk (zeroPad 2 (decChars (n / 3600 % 24)) ++ ':' ::
    zeroPad 2 (decChars (n % 3600 / 60)) ++ ':' :: zeroPad 2 (decChars (n % 60)))

/-- The derived progress values of one log line. -/
structure Progress where
  rate : ℚ
  percent : ℚ
  eta : String

/-- Lines 46-57 of src/client/parallel_scene_img2img.py: rate, percent
complete and ETA string from the shared counter value `totalWritten`, the
total `total_frames` and the elapsed time since the shared start
timestamp. -/
def computeProgress (totalWritten total_frames : Nat) (elapsed : ℚ) : Progress :=
  let rate : ℚ := if 0 < elapsed then (totalWritten : ℚ) / elapsed else 0
  let percent : ℚ :=
    if 0 < total_frames then (totalWritten : ℚ) / (total_frames : ℚ) * 100 else 0
  let remaining : ℤ := max ((total_frames : ℤ) - (totalWritten : ℤ)) 0
  let eta :=
    if remaining = 0 then "00:00:00"
    else if 0 < rate then formatHMS (pyRound ((remaining : ℚ) / rate)).toNat
    else "N/A"
  ⟨rate, percent, eta⟩

/-! ### The worker loop body (src/client/parallel_scene_img2img.py:30-60) -/

/-- What processing one work item does to the world outside the counter:
either the transform succeeded (with the output bytes and the measured
latency) or some exception was caught. -/
inductive ItemOutcome where
  | ok (bytes : Bytes) (latencyMs : Nat)
  | err (e : PyExn)

/-- One line the worker prints. -/
inductive LogLine where
  /-- The `Wrote ... | ... fps | ...% complete | ETA: ...` line. -/
  | progress (latencyMs : Nat) (rate : ℚ) (percent : ℚ) (eta : String)
  /-- The `Error processing ...` line. -/
  | failure (e : PyExn)

/-- The body of `worker`'s `try`/`except` for one item: on success the
shared counter is incremented under its lock and a progress line printed;
a caught exception leaves the counter untouched and prints the distinct
error line. -/
def workerStep (total_frames : Nat) (elapsed : ℚ) (counter : Nat)
    (o : ItemOutcome) : Nat × LogLine :=
  match o with
  | .ok _ lat =>
    let total_written := counter + 1
    let p := computeProgress total_written total_frames elapsed
    (total_written, .progress lat p.rate p.percent p.eta)
  | .err e => (counter, .failure e)

/-- A worker processing a sequence of items, each paired with the elapsed
time observed when it completes: the final counter and the printed lines. -/
def workerRun (total_frames : Nat) (counter : Nat) :
    List (ItemOutcome × ℚ) → Nat × List LogLine
  | [] => (counter, [])
  | (o, e) :: rest =>
    let s := workerStep total_frames e counter o
    let r := workerRun total_frames s.1 rest
    (r.1, s.2 :: r.2)

/-- The number of successful items in a worker trace. -/
def countSuccesses (outs : List (ItemOutcome × ℚ)) : Nat :=
  outs.countP (fun x => match x.1 with | .ok _ _ => true | .err _ => false)

/-! ### Queue dispatch (src/client/parallel_scene_img2img.py:89-105 and 30-34)

`main` enqueues every work item, starts the workers, then enqueues one
`None` stop marker per worker and joins them. Each worker loops popping
the shared FIFO queue, stopping at its first `None`. We model the queue
contents as a list consumed from the head, a state counting the workers
still running, and a nondeterministic small-step relation: any running
worker may pop the head of the queue. -/

/-- The enqueue order `main` produces: all work items, then one stop
marker per worker. -/
def mainEnqueueList (items : List α) (workerCount : Nat) : List (Option α) :=
  items.map some ++ List.replicate workerCount none

/-- Global state of the dispatch: the queue contents (head popped first),
the number of workers still running, the items popped and attempted so
far, and the number of stop markers delivered. -/
structure DispatchState (Item : Type) where
  queue : List (Option Item)
  running : Nat
  attempted : List Item
  stopsDelivered : Nat
deriving DecidableEq

/-- One step of the pool: a running worker pops the queue head. Popping
an item attempts it and leaves the worker running; popping a stop marker
retires exactly that worker. -/
inductive DStep (Item : Type) : DispatchState Item → DispatchState Item → Prop
  | item (it : Item) (q : List (Option Item)) (r : Nat) (a : List Item) (s : Nat) :
      DStep Item ⟨some it :: q, r + 1, a, s⟩ ⟨q, r + 1, a ++ [it], s⟩
  | stop (q : List (Option Item)) (r : Nat) (a : List Item) (s : Nat) :
      DStep Item ⟨none :: q, r + 1, a, s⟩ ⟨q, r, a, s + 1⟩

/-- The state right after `main` has enqueued everything and started
`workerCount` workers. -/
def initState (items : List α) (workerCount : Nat) : DispatchState α :=
  ⟨mainEnqueueList items workerCount, workerCount, [], 0⟩

/-- Reachability by pool steps. -/
def DReach (items : List α) (workerCount : Nat) (s : DispatchState α) : Prop :=
  Relation.ReflTransGen (DStep α) (initState items workerCount) s

/-- A state from which no pool step is possible: the run has ended. -/
def Stuck (s : DispatchState α) : Prop := ∀ s', ¬ DStep α s s'

/-! ### Work-list shuffling (src/client/parallel_scene_img2img.py:87 and
src/client/parallel_client.py:177-179)

`random.shuffle` is the Fisher–Yates loop `for i in reversed(range(1,
len(x))): j = randbelow(i + 1); swap x[i], x[j]`. The stream of random
draws is a parameter `js`; each draw is mapped into the valid range
`[0, i]` by reduction mod `i + 1`, modelling `randbelow(i + 1)`. -/

/-- Swap two positions of a list (identity when either is out of range). -/
def listSwap (l : List α) (i j : Nat) : List α :=
  match l[i]?, l[j]? with
  | some a, some b => (l.set i b).set j a
  | _, _ => l

/-- The Fisher–Yates loop of `random.shuffle`, from position `i` down to
1, consuming one random draw per position. -/
def shuffleSteps : List α → Nat → List Nat → List α
  | l, 0, _ => l
  | l, _ + 1, [] => l
  | l, i + 1, j :: js => shuffleSteps (listSwap l (i + 1) (j % (i + 2))) i js

/-- Model of `random.shuffle(l)` under the draw stream `js`. -/
def pyShuffle (l : List α) (js : List Nat) : List α :=
  shuffleSteps l (l.length - 1) js

/-- The order in which `parallel_scene_img2img.main` enqueues the built
work list (line 87): `random.shuffle(frame_queue)` is applied
unconditionally — the function has no shuffle option. -/
def sceneEnqueueOrder (items : List α) (js : List Nat) : List α :=
  pyShuffle items js

/-- The order in which `parallel_client.main` processes the frame list
(lines 177-179): shuffled only when the `--shuffle` flag is set. -/
def clientEnqueueOrder (shuffleFlag : Bool) (frames : List α) (js : List Nat) :
    List α :=
  if shuffleFlag then pyShuffle frames js else frames

/-- A cache filename of the shape `frame_{frameNumber:05d}_{hash:8hex}.png`
described by the spec's on-disk layout: five decimal digits, an
underscore, eight lowercase hex characters, the `.png` extension. -/
def FrameCacheName (fname : String) : Prop :=
  ∃ dchars hchars : List Char,
    fname = String.mk ("frame".data ++ '_' :: dchars ++ '_' :: (hchars ++ ".png".data)) ∧
    dchars.length = 5 ∧ (∀ c ∈ dchars, c.isDigit = true) ∧
    hchars.length = 8 ∧ (∀ c ∈ hchars, c ∈ hexAlphabet)

end SdRunpod

namespace SdRunpod

/-! ## Supporting lemmas -/

theorem FS.lookup_write_self (fs : FS) (p : String) (b : Bytes) :
    (fs.write p b).lookup p = some b := by
  simp [FS.write, FS.lookup, List.find?]

theorem FS.lookup_write_ne (fs : FS) {p q : String} (b : Bytes) (h : q ≠ p) :
    (fs.write p b).lookup q = fs.lookup q := by
  have hb : (p == q) = false := by
    simpa [beq_eq_false_iff_ne] using h.symm
  simp [FS.write, FS.lookup, List.find?, hb]

theorem applyOps_putBytes (data : Bytes) : ∀ (fs : FS) (path : String) (pre : Bytes),
    fs.lookup path = some pre →
    (applyOps fs (data.map (WriteOp.putByte path))).lookup path = some (pre ++ data) := by
  induction data with
  | nil => intro fs path pre h; simpa [applyOps] using h
  | cons b rest ih =>
    intro fs path pre h
    have hstep : applyOp fs (WriteOp.putByte path b) = fs.write path (pre ++ [b]) := by
      simp [applyOp, h]
    simp only [List.map_cons, applyOps, List.foldl_cons]
    have := ih (fs.write path (pre ++ [b])) path (pre ++ [b])
      (FS.lookup_write_self _ _ _)
    simpa [applyOps, hstep, List.append_assoc] using this

/-! ## C4: atomicity of the cache write -/

/-- Claim C4 is false of the code: the cache write of
src/client/caching_img2img.py:94-96 opens the final path directly, so an
interruption mid-write leaves a partially written entry visible under its
key. Concretely, writing payload `[7, 9]` interrupted after the open and
the first byte leaves the key present with content `[7]`: neither absent
nor the complete payload. -/
theorem c4_counterexample :
    (applyOps FS.empty ((cacheWriteOps "cache/frame_00001_00000000.png" [7, 9]).take 2)).lookup
        "cache/frame_00001_00000000.png" = some [7] ∧
    (some [7] : Option Bytes) ≠ none ∧ ([7] : Bytes) ≠ [7, 9] := by
  refine ⟨by decide, by decide, by decide⟩

/-- Claim C4 amended: the cache write is a direct write to the final
path — no staging file, no rename. A completed write leaves the full
payload under the key, but execution of any proper prefix of the write
(interruption after the truncating open and `k` payload bytes) leaves a
partially written entry holding exactly the first `k` bytes visible under
the key. -/
theorem c4_amended (fs : FS) (path : String) (data : Bytes) (k : Nat) :
    (applyOps fs (cacheWriteOps path data)).lookup path = some data ∧
    (applyOps fs ((cacheWriteOps path data).take (k + 1))).lookup path =
      some (data.take k) := by
  constructor
  · have h0 : (applyOp fs (WriteOp.create path)).lookup path = some [] :=
      FS.lookup_write_self _ _ _
    have := applyOps_putBytes data (applyOp fs (WriteOp.create path)) path [] h0
    simpa [cacheWriteOps, applyOps] using this
  · have h0 : (applyOp fs (WriteOp.create path)).lookup path = some [] :=
      FS.lookup_write_self _ _ _
    have := applyOps_putBytes (data.take k) (applyOp fs (WriteOp.create path)) path [] h0
    simpa [cacheWriteOps, applyOps, List.map_take] using this

/-! ## C8: shuffling of the work list -/

theorem getElem_cons_set_perm (x : α) : ∀ (xs : List α) (k : Nat) (h : k < xs.length),
    List.Perm (xs[k] :: xs.set k x) (x :: xs) := by
  intro xs
  induction xs with
  | nil => intro k h; exact absurd h (by simp)
  | cons y ys ih =>
    intro k h
    match k with
    | 0 => simpa using List.Perm.swap x y ys
    | k + 1 =>
      have hk : k < ys.length := by simpa using h
      have h1 : List.Perm (ys[k] :: y :: ys.set k x) (y :: ys[k] :: ys.set k x) :=
        List.Perm.swap y ys[k] _
      have h2 : List.Perm (y :: ys[k] :: ys.set k x) (y :: x :: ys) := (ih k hk).cons y
      have h3 : List.Perm (y :: x :: ys) (x :: y :: ys) := List.Perm.swap x y ys
      exact (h1.trans h2).trans h3

theorem set_set_perm : ∀ (l : List α) (i j : Nat) (hi : i < l.length)
    (hj : j < l.length), List.Perm ((l.set i l[j]).set j l[i]) l := by
  intro l
  induction l with
  | nil => intro i j hi; exact absurd hi (by simp)
  | cons x xs ih =>
    intro i j hi hj
    match i, j with
    | 0, 0 => simp
    | 0, j + 1 =>
      have hj' : j < xs.length := by simpa using hj
      simpa using getElem_cons_set_perm x xs j hj'
    | i + 1, 0 =>
      have hi' : i < xs.length := by simpa using hi
      simpa using getElem_cons_set_perm x xs i hi'
    | i + 1, j + 1 =>
      have hi' : i < xs.length := by simpa using hi
      have hj' : j < xs.length := by simpa using hj
      simpa using (ih i j hi' hj').cons x

theorem listSwap_perm (l : List α) (i j : Nat) : List.Perm (listSwap l i j) l := by
  unfold listSwap
  cases h1 : l[i]? with
  | none => cases h2 : l[j]? <;> exact List.Perm.refl l
  | some a =>
    cases h2 : l[j]? with
    | none => exact List.Perm.refl l
    | some b =>
      have hi : i < l.length := by
        by_contra h
        simp [List.getElem?_eq_none (Nat.le_of_not_lt h)] at h1
      have hj : j < l.length := by
        by_contra h
        simp [List.getElem?_eq_none (Nat.le_of_not_lt h)] at h2
      have ha : l[i] = a := by
        have := List.getElem?_eq_getElem hi
        rw [h1] at this; exact (Option.some.inj this).symm
      have hb : l[j] = b := by
        have := List.getElem?_eq_getElem hj
        rw [h2] at this; exact (Option.some.inj this).symm
      subst ha hb
      exact set_set_perm l i j hi hj

theorem shuffleSteps_perm : ∀ (i : Nat) (l : List α) (js : List Nat),
    List.Perm (shuffleSteps l i js) l := by
  intro i
  induction i with
  | zero => intro l js; exact List.Perm.refl l
  | succ i ih =>
    intro l js
    cases js with
    | nil => exact List.Perm.refl l
    | cons j js =>
      exact (ih (listSwap l (i + 1) (j % (i + 2))) js).trans
        (listSwap_perm l (i + 1) (j % (i + 2)))

theorem pyShuffle_perm (l : List α) (js : List Nat) : List.Perm (pyShuffle l js) l :=
  shuffleSteps_perm (l.length - 1) l js

/-- Claim C8 is false of the code as stated: `parallel_scene_img2img.main`
has no shuffle option at all — line 87 applies `random.shuffle` to the
built work list unconditionally. With built list `[0, 1]` and random draw
0 the enqueued order is `[1, 0]`, not the built order. -/
theorem c8_counterexample :
    sceneEnqueueOrder ([0, 1] : List Nat) [0] = [1, 0] ∧
    sceneEnqueueOrder ([0, 1] : List Nat) [0] ≠ [0, 1] := by
  refine ⟨by decide, by decide⟩

/-- Claim C8 amended: in `parallel_client.main` the shuffle is applied
only when the `--shuffle` flag is enabled (without it the frame order is
unchanged), while `parallel_scene_img2img.main` shuffles its work list
unconditionally; in all cases the enqueued items are exactly a
permutation of the built work list — nothing is added, dropped or
duplicated. -/
theorem c8_amended :
    (∀ (α : Type) (frames : List α) (js : List Nat),
        clientEnqueueOrder false frames js = frames) ∧
    (∀ (α : Type) (flag : Bool) (frames : List α) (js : List Nat),
        List.Perm (clientEnqueueOrder flag frames js) frames) ∧
    (∀ (α : Type) (items : List α) (js : List Nat),
        List.Perm (sceneEnqueueOrder items js) items) := by
  refine ⟨fun α frames js => rfl, fun α flag frames js => ?_, fun α items js => ?_⟩
  · cases flag
    · exact List.Perm.refl frames
    · exact pyShuffle_perm frames js
  · exact pyShuffle_perm items js

/-! ## C3: disabled-cache mode -/

theorem runAttempts_none_fs (remote : Nat → Except PyExn Bytes) (rd : ℚ) :
    ∀ (remaining attempt : Nat) (last : Option PyExn) (fs : FS),
      (runAttempts none remote rd fs attempt remaining last).fs = fs ∧
      (runAttempts none remote rd fs attempt remaining last).writes = 0 := by
  intro remaining
  induction remaining with
  | zero => intro attempt last fs; exact ⟨rfl, rfl⟩
  | succ r ih =>
    intro attempt last fs
    rw [runAttempts.eq_2]
    cases hre : remote attempt with
    | ok bytes => exact ⟨rfl, rfl⟩
    | error e =>
      cases r with
      | zero => exact ⟨rfl, rfl⟩
      | succ rr =>
        simpa using ih (attempt + 1) (some e) fs

/-- Claim C3 is the documented intent but the code breaks it: with
`cache_dir=None`, `CachingImg2ImgClient.__init__` unconditionally
evaluates `os.path.join(cache_dir, PROMPT_HASH_FILE)`
(src/client/caching_img2img.py:23), which raises `TypeError`, so a
disabled-cache client cannot even be constructed — although `get_or_run`
itself (the code the docstring at line 72 describes) would indeed never
check, read or write the cache and would leave the file store untouched
when `cache_dir` is `None`. -/
theorem c3_disabled_mode :
    (∀ (fs : FS) (parse : Bytes → List (String × String)),
        clientInit none fs parse = .error PyExn.typeError) ∧
    (∀ (fs : FS) (imagePath prompt : String) (remote : Nat → Except PyExn Bytes)
        (maxRetries : Nat) (retryDelay : ℚ),
        (get_or_run none fs imagePath prompt remote maxRetries retryDelay).cacheWrites = 0 ∧
        (get_or_run none fs imagePath prompt remote maxRetries retryDelay).cacheChecks = 0 ∧
        (get_or_run none fs imagePath prompt remote maxRetries retryDelay).fs = fs) := by
  constructor
  · intro fs parse; rfl
  · intro fs imagePath prompt remote maxRetries retryDelay
    simp only [get_or_run]
    cases h : fs.lookup imagePath with
    | none => exact ⟨rfl, rfl, rfl⟩
    | some img =>
      have h2 := runAttempts_none_fs remote retryDelay maxRetries 1 none fs
      exact ⟨h2.2, rfl, h2.1⟩

/-! ## C9: the progress computation -/

theorem computeProgress_rate (N T : Nat) (e : ℚ) :
    (computeProgress N T e).rate = if e ≤ 0 then 0 else (N : ℚ) / e := by
  simp only [computeProgress]
  split_ifs with h1 h2 <;> first | rfl | linarith

theorem computeProgress_rate_nonneg (N T : Nat) (e : ℚ) :
    0 ≤ (computeProgress N T e).rate := by
  simp only [computeProgress]
  split_ifs with h
  · exact div_nonneg (Nat.cast_nonneg N) (le_of_lt h)
  · exact le_refl 0

theorem computeProgress_percent (N T : Nat) (e : ℚ) :
    (computeProgress N T e).percent = (N : ℚ) / (T : ℚ) * 100 := by
  show (if 0 < T then (N : ℚ) / (T : ℚ) * 100 else 0) = (N : ℚ) / (T : ℚ) * 100
  split_ifs with h
  · rfl
  · have hT : T = 0 := by omega
    rw [hT]
    simp only [Nat.cast_zero, div_zero, zero_mul]

theorem computeProgress_eta (N T : Nat) (e : ℚ) :
    (computeProgress N T e).eta =
      if T ≤ N then "00:00:00"
      else if (computeProgress N T e).rate = 0 then "N/A"
      else formatHMS (pyRound (((T : ℚ) - (N : ℚ)) /
        (computeProgress N T e).rate)).toNat := by
  have hnn := computeProgress_rate_nonneg N T e
  have heta : (computeProgress N T e).eta =
      (if (max ((T : ℤ) - (N : ℤ)) 0) = 0 then "00:00:00"
       else if 0 < (computeProgress N T e).rate then
         formatHMS (pyRound (((max ((T : ℤ) - (N : ℤ)) 0 : ℤ) : ℚ) /
           (computeProgress N T e).rate)).toNat
       else "N/A") := rfl
  rw [heta]
  by_cases hTN : T ≤ N
  · have hrem : max ((T : ℤ) - (N : ℤ)) 0 = 0 :=
      max_eq_right (by omega)
    rw [if_pos hrem, if_pos hTN]
  · have hNT : N < T := not_le.mp hTN
    have hrem : max ((T : ℤ) - (N : ℤ)) 0 = (T : ℤ) - (N : ℤ) :=
      max_eq_left (by omega)
    have hremne : ¬(max ((T : ℤ) - (N : ℤ)) 0 = 0) := by omega
    rw [if_neg hremne, if_neg hTN, hrem]
    have hcast : (((T : ℤ) - (N : ℤ) : ℤ) : ℚ) = (T : ℚ) - (N : ℚ) := by push_cast; ring
    rw [hcast]
    by_cases hr : (0 : ℚ) < (computeProgress N T e).rate
    · rw [if_pos hr, if_neg (ne_of_gt hr)]
    · have h0 : (computeProgress N T e).rate = 0 := le_antisymm (not_lt.mp hr) hnn
      rw [if_neg hr, if_pos h0]

/-- Claim C9: on each progress computation with counter `N`, total `T`
and elapsed time `e`, the rate is `N / e` (0 when the elapsed time is not
positive), the percentage is exactly `N / T * 100` (the code's `T > 0`
guard returns the same value, since division by zero is zero over ℚ), and
the ETA string is `(T - N) / rate` rounded and formatted `HH:MM:SS` when
items remain and the rate is positive, `"N/A"` when items remain and the
rate is zero, and `"00:00:00"` when no items remain. -/
theorem c9_progress_formulas (N T : Nat) (e : ℚ) :
    (computeProgress N T e).rate = (if e ≤ 0 then 0 else (N : ℚ) / e) ∧
    (computeProgress N T e).percent = (N : ℚ) / (T : ℚ) * 100 ∧
    (computeProgress N T e).eta =
      (if T ≤ N then "00:00:00"
       else if (computeProgress N T e).rate = 0 then "N/A"
       else formatHMS (pyRound (((T : ℚ) - (N : ℚ)) /
         (computeProgress N T e).rate)).toNat) :=
  ⟨computeProgress_rate N T e, computeProgress_percent N T e, computeProgress_eta N T e⟩

/-! ## C6: the shared success counter -/

theorem countSuccesses_take (outs : List (ItemOutcome × ℚ)) (n : Nat) :
    countSuccesses (outs.take n) ≤ countSuccesses outs := by
  unfold countSuccesses
  conv_rhs => rw [← List.take_append_drop n outs]
  rw [List.countP_append]
  exact Nat.le_add_right _ _

theorem workerRun_counter (T : Nat) :
    ∀ (outs : List (ItemOutcome × ℚ)) (c0 : Nat),
      (workerRun T c0 outs).1 = c0 + countSuccesses outs := by
  intro outs
  induction outs with
  | nil => intro c0; simp [workerRun, countSuccesses]
  | cons p rest ih =>
    intro c0
    obtain ⟨o, e⟩ := p
    cases o with
    | ok b lat =>
      simp only [workerRun, workerStep]
      rw [ih]
      simp [countSuccesses, List.countP_cons]
      omega
    | err ex =>
      simp only [workerRun, workerStep]
      rw [ih]
      simp [countSuccesses, List.countP_cons]

/-- Claim C6: the shared completed-count is monotonically non-decreasing
(each step's counter is at least the previous), a successful item
increments it by exactly one and prints the progress line whose percent
field is exactly `N / T * 100` for the new count `N`, a failed item
leaves the counter unchanged and prints the distinct error line, the
counter after any trace equals the initial value plus the number of
successes (so it is incremented exactly once per success), and the
counter after any prefix of a trace never exceeds the counter after the
whole trace. -/
theorem c6_counter_invariants :
    (∀ (T : Nat) (e : ℚ) (c : Nat) (o : ItemOutcome), c ≤ (workerStep T e c o).1) ∧
    (∀ (T : Nat) (e : ℚ) (c : Nat) (b : Bytes) (lat : Nat),
        (workerStep T e c (.ok b lat)).1 = c + 1 ∧
        (workerStep T e c (.ok b lat)).2 = .progress lat
          (computeProgress (c + 1) T e).rate (((c : ℚ) + 1) / (T : ℚ) * 100)
          (computeProgress (c + 1) T e).eta) ∧
    (∀ (T : Nat) (e : ℚ) (c : Nat) (ex : PyExn),
        (workerStep T e c (.err ex)).1 = c ∧
        (workerStep T e c (.err ex)).2 = .failure ex) ∧
    (∀ (T : Nat) (c0 : Nat) (outs : List (ItemOutcome × ℚ)),
        (workerRun T c0 outs).1 = c0 + countSuccesses outs) ∧
    (∀ (T : Nat) (c0 : Nat) (outs : List (ItemOutcome × ℚ)) (n : Nat),
        (workerRun T c0 (outs.take n)).1 ≤ (workerRun T c0 outs).1) := by
  refine ⟨?_, ?_, ?_, ?_, ?_⟩
  · intro T e c o
    cases o with
    | ok b lat => exact Nat.le_succ c
    | err ex => exact le_refl c
  · intro T e c b lat
    refine ⟨rfl, ?_⟩
    simp only [workerStep]
    rw [show (computeProgress (c + 1) T e).percent = ((c : ℚ) + 1) / (T : ℚ) * 100 by
      rw [computeProgress_percent]; push_cast; ring]
  · intro T e c ex; exact ⟨rfl, rfl⟩
  · intro T c0 outs; exact workerRun_counter T outs c0
  · intro T c0 outs n
    rw [workerRun_counter, workerRun_counter]
    exact Nat.add_le_add_left (countSuccesses_take outs n) c0

/-! ## C1 and C2: the retry loop of `get_or_run` -/

theorem runAttempts_first_ok_some (remote : Nat → Except PyExn Bytes) (rd : ℚ)
    (fs : FS) (p : String) (attempt r : Nat) (last : Option PyExn) (B : Bytes)
    (h : remote attempt = .ok B) :
    runAttempts (some p) remote rd fs attempt (r + 1) last =
      ⟨.ok B, fs.write p B, 1, [], 1⟩ := by
  rw [runAttempts.eq_2, h]

theorem runAttempts_all_fail (cp : Option String) (remote : Nat → Except PyExn Bytes)
    (rd : ℚ) (errs : Nat → PyExn) :
    ∀ (r attempt : Nat) (last : Option PyExn) (fs : FS),
      (∀ k, k ≤ r → remote (attempt + k) = .error (errs (attempt + k))) →
      runAttempts cp remote rd fs attempt (r + 1) last =
        ⟨.error (errs (attempt + r)), fs, r + 1, List.replicate r rd, 0⟩ := by
  intro r
  induction r with
  | zero =>
    intro attempt last fs hfail
    have h0 : remote attempt = .error (errs attempt) := by
      simpa using hfail 0 (le_refl 0)
    rw [runAttempts.eq_2, h0]
    simp
  | succ rr ih =>
    intro attempt last fs hfail
    have h0 : remote attempt = .error (errs attempt) := by
      simpa using hfail 0 (by omega)
    rw [runAttempts.eq_2, h0]
    have ihr := ih (attempt + 1) (some (errs attempt)) fs (fun k hk => by
      have := hfail (k + 1) (by omega)
      have harg : attempt + (k + 1) = attempt + 1 + k := by omega
      rw [harg] at this
      exact this)
    simp only [ihr]
    have harg : attempt + 1 + rr = attempt + (rr + 1) := by omega
    rw [harg, List.replicate_succ]

/-- Claim C2: when the remote call fails on every attempt, `get_or_run`
(entered with caching enabled, a cache miss and a readable input image)
makes exactly `maxRetries` remote attempts with the configured fixed
delay slept between consecutive attempts (`maxRetries - 1` sleeps), then
surfaces the failure of the last attempt as the raised error; the cache
existence check runs exactly once before the loop, the cache is never
written and the file store is unchanged, so neither the cache lookup nor
the cache write is ever retried — only the remote call is. The parameter
defaults are `max_retries = 3` and `retry_delay = 0.5`. -/
theorem c2_retry_exhaustion (d imagePath prompt : String) (fs : FS) (img : Bytes)
    (remote : Nat → Except PyExn Bytes) (errs : Nat → PyExn)
    (maxRetries : Nat) (retryDelay : ℚ)
    (hmr : 1 ≤ maxRetries)
    (hmiss : fs.lookup (d ++ "/" ++ cache_key imagePath prompt) = none)
    (himg : fs.lookup imagePath = some img)
    (hfail : ∀ k, 1 ≤ k → k ≤ maxRetries → remote k = .error (errs k)) :
    (get_or_run (some d) fs imagePath prompt remote maxRetries retryDelay).result =
        .error (errs maxRetries) ∧
    (get_or_run (some d) fs imagePath prompt remote maxRetries retryDelay).remoteAttempts =
        maxRetries ∧
    (get_or_run (some d) fs imagePath prompt remote maxRetries retryDelay).sleeps =
        List.replicate (maxRetries - 1) retryDelay ∧
    (get_or_run (some d) fs imagePath prompt remote maxRetries retryDelay).cacheWrites = 0 ∧
    (get_or_run (some d) fs imagePath prompt remote maxRetries retryDelay).cacheChecks = 1 ∧
    (get_or_run (some d) fs imagePath prompt remote maxRetries retryDelay).fs = fs ∧
    DEFAULT_MAX_RETRIES = 3 ∧ DEFAULT_RETRY_DELAY = 1 / 2 := by
  obtain ⟨m, rfl⟩ : ∃ m, maxRetries = m + 1 := ⟨maxRetries - 1, by omega⟩
  have hrun := runAttempts_all_fail (some (d ++ "/" ++ cache_key imagePath prompt))
    remote retryDelay errs m 1 none fs (fun k hk => hfail (1 + k) (by omega) (by omega))
  have h1m : 1 + m = m + 1 := by omega
  rw [h1m] at hrun
  simp [get_or_run, hmiss, himg, hrun, DEFAULT_MAX_RETRIES, DEFAULT_RETRY_DELAY]

/-- Claim C1: with caching enabled and an empty cache for the key of
`(image, prompt)`, a first `get_or_run` call whose first remote attempt
returns bytes `B` issues exactly one remote call and writes `B` to the
cache file at the derived key under the cache root; a second call with
identical arguments (under any remote oracle) issues no remote call,
reports the result as served from cache, returns byte-identical data `B`
and leaves the store unchanged. -/
theorem c1_cache_roundtrip (d imagePath prompt : String) (fs : FS) (img B : Bytes)
    (remote remote2 : Nat → Except PyExn Bytes) (maxRetries : Nat) (retryDelay : ℚ)
    (hmr : 1 ≤ maxRetries)
    (hmiss : fs.lookup (d ++ "/" ++ cache_key imagePath prompt) = none)
    (himg : fs.lookup imagePath = some img)
    (hok : remote 1 = .ok B) :
    (get_or_run (some d) fs imagePath prompt remote maxRetries retryDelay).result = .ok B ∧
    (get_or_run (some d) fs imagePath prompt remote maxRetries retryDelay).remoteAttempts = 1 ∧
    (get_or_run (some d) fs imagePath prompt remote maxRetries retryDelay).fs.lookup
        (d ++ "/" ++ cache_key imagePath prompt) = some B ∧
    (get_or_run (some d)
        (get_or_run (some d) fs imagePath prompt remote maxRetries retryDelay).fs
        imagePath prompt remote2 maxRetries retryDelay).result = .ok B ∧
    (get_or_run (some d)
        (get_or_run (some d) fs imagePath prompt remote maxRetries retryDelay).fs
        imagePath prompt remote2 maxRetries retryDelay).remoteAttempts = 0 ∧
    (get_or_run (some d)
        (get_or_run (some d) fs imagePath prompt remote maxRetries retryDelay).fs
        imagePath prompt remote2 maxRetries retryDelay).servedFromCache = true ∧
    (get_or_run (some d)
        (get_or_run (some d) fs imagePath prompt remote maxRetries retryDelay).fs
        imagePath prompt remote2 maxRetries retryDelay).fs =
      (get_or_run (some d) fs imagePath prompt remote maxRetries retryDelay).fs := by
  obtain ⟨m, rfl⟩ : ∃ m, maxRetries = m + 1 := ⟨maxRetries - 1, by omega⟩
  have hrun := runAttempts_first_ok_some remote retryDelay fs
    (d ++ "/" ++ cache_key imagePath prompt) 1 m none B hok
  have hfirst : get_or_run (some d) fs imagePath prompt remote (m + 1) retryDelay =
      ⟨.ok B, fs.write (d ++ "/" ++ cache_key imagePath prompt) B, 1, [], 1, 1, false⟩ := by
    simp only [get_or_run, hmiss, himg, hrun]
  have hhit : (fs.write (d ++ "/" ++ cache_key imagePath prompt) B).lookup
      (d ++ "/" ++ cache_key imagePath prompt) = some B :=
    FS.lookup_write_self _ _ _
  rw [hfirst]
  refine ⟨rfl, rfl, hhit, ?_, ?_, ?_, ?_⟩ <;>
    simp [get_or_run, hhit]

/-! ## C5: cache-key derivation -/

theorem flatMap_const_length {α β : Type} {f : α → List β} (k : Nat)
    (hf : ∀ x, (f x).length = k) : ∀ l : List α, (l.flatMap f).length = k * l.length := by
  intro l
  induction l with
  | nil => simp
  | cons x xs ih =>
    simp only [List.flatMap_cons, List.length_append, hf, ih, List.length_cons]
    ring

theorem beBytes_length (k : Nat) : ∀ n, (beBytes k n).length = k := by
  induction k with
  | zero => intro n; rfl
  | succ k ih => intro n; simp [beBytes, ih]

theorem leBytes_length (k : Nat) : ∀ n, (leBytes k n).length = k := by
  induction k with
  | zero => intro n; rfl
  | succ k ih => intro n; simp [leBytes, ih]

theorem hexByte_length (b : Nat) : (hexByte b).length = 2 := rfl

theorem hexWord32_length (n : Nat) : (hexWord32 n).length = 8 := by
  rw [hexWord32, flatMap_const_length 2 hexByte_length, beBytes_length]

theorem sha256Round_length (st : List Nat) (kw : Nat × Nat) (h : st.length = 8) :
    (sha256Round st kw).length = 8 := by
  rcases st with _ | ⟨a, _ | ⟨b, _ | ⟨c, _ | ⟨d, _ | ⟨e, _ | ⟨f, _ | ⟨g, _ |
    ⟨hh, _ | ⟨i, t⟩⟩⟩⟩⟩⟩⟩⟩⟩ <;> simp_all [sha256Round]

theorem foldl_sha256Round_length (l : List (Nat × Nat)) :
    ∀ st : List Nat, st.length = 8 → (l.foldl sha256Round st).length = 8 := by
  induction l with
  | nil => intro st h; simpa
  | cons x xs ih => intro st h; exact ih _ (sha256Round_length st x h)

theorem sha256Block_length (hstate block : List Nat) (h : hstate.length = 8) :
    (sha256Block hstate block).length = 8 := by
  have h2 := foldl_sha256Round_length
    (sha256K.zip (sha256Extend 48 (beWords block))) hstate h
  simp [sha256Block, List.length_zip, h, h2]

theorem sha256State_length (msg : List Nat) : (sha256State msg).length = 8 := by
  have key : ∀ (bs : List (List Nat)) (st : List Nat), st.length = 8 →
      (bs.foldl sha256Block st).length = 8 := by
    intro bs
    induction bs with
    | nil => intro st h; simpa
    | cons b bs ih => intro st h; exact ih _ (sha256Block_length st b h)
  exact key _ sha256H0 (by decide)

theorem sha256hexChars_length (msg : List Nat) : (sha256hexChars msg).length = 64 := by
  rw [sha256hexChars, flatMap_const_length 8 hexWord32_length, sha256State_length]

theorem hexChar_mem (n : Nat) : hexChar n ∈ hexAlphabet := by
  rcases Nat.lt_or_ge n 16 with h | h
  · have hl : n < hexAlphabet.length := by
      have : hexAlphabet.length = 16 := by decide
      omega
    rw [hexChar, List.getD_eq_getElem _ _ hl]
    exact List.getElem_mem hl
  · have hl : hexAlphabet.length ≤ n := by
      have : hexAlphabet.length = 16 := by decide
      omega
    rw [hexChar, List.getD_eq_default _ _ hl]
    decide

theorem sha256hexChars_mem (msg : List Nat) :
    ∀ c ∈ sha256hexChars msg, c ∈ hexAlphabet := by
  intro c hc
  rw [sha256hexChars, List.mem_flatMap] at hc
  obtain ⟨w, _, hcw⟩ := hc
  rw [hexWord32, List.mem_flatMap] at hcw
  obtain ⟨b, _, hcb⟩ := hcw
  simp only [hexByte, List.mem_cons, List.not_mem_nil, or_false] at hcb
  rcases hcb with rfl | rfl <;> exact hexChar_mem _

theorem decChars_digit (n : Nat) : ∀ c ∈ decChars n, c.isDigit = true := by
  intro c hc
  by_cases h : n = 0
  · subst h
    have h0 : decChars 0 = ['0'] := rfl
    rw [h0, List.mem_singleton] at hc
    subst hc
    decide
  · rw [decChars, if_neg h, List.mem_map] at hc
    obtain ⟨d, hd, rfl⟩ := hc
    rw [List.mem_reverse] at hd
    have hlt : d < 10 := Nat.digits_lt_base (by norm_num) hd
    interval_cases d <;> decide

theorem fmt05_length (n : Nat) : 5 ≤ (fmt05 n).length := by
  simp only [fmt05, zeroPad, List.length_append, List.length_replicate]
  omega

theorem fmt05_digit (n : Nat) : ∀ c ∈ fmt05 n, c.isDigit = true := by
  intro c hc
  rw [fmt05, zeroPad, List.mem_append] at hc
  rcases hc with h | h
  · rw [List.mem_replicate] at h
    rw [h.2]
    decide
  · exact decChars_digit n c h

theorem takeWhile_append_sentinel {α : Type} {p : α → Bool} (c : α) (hc : p c = false) :
    ∀ (l1 l2 : List α), (∀ a ∈ l1, p a = true) →
      (l1 ++ c :: l2).takeWhile p = l1 := by
  intro l1
  induction l1 with
  | nil => intro l2 h; simp [List.takeWhile_cons, hc]
  | cons x xs ih =>
    intro l2 h
    have hx : p x = true := h x (by simp)
    simp [List.takeWhile_cons, hx, ih l2 (fun a ha => h a (by simp [ha]))]

theorem basenameChars_no_slash (l : List Char) (h : ∀ c ∈ l, (c != '/') = true) :
    basenameChars l = l := by
  have hrev : (l.reverse.takeWhile (fun c => c != '/')) = l.reverse :=
    List.takeWhile_eq_self_iff.mpr (fun x hx => h x (List.mem_reverse.mp hx))
  rw [basenameChars, hrev, List.reverse_reverse]

theorem isDigit_ne_slash {c : Char} (h : c.isDigit = true) : (c != '/') = true := by
  rcases eq_or_ne c '/' with rfl | hne
  · exact absurd h (by decide)
  · simpa using hne

theorem paddedName_no_slash (f : Nat) :
    ∀ c ∈ "frame_".data ++ fmt05 f ++ ".png".data, (c != '/') = true := by
  have h1 : ∀ c ∈ "frame_".data, (c != '/') = true := by decide
  have h3 : ∀ c ∈ ".png".data, (c != '/') = true := by decide
  intro c hc
  rw [List.append_assoc, List.mem_append, List.mem_append] at hc
  rcases hc with h | h | h
  · exact h1 c h
  · exact isDigit_ne_slash (fmt05_digit f c h)
  · exact h3 c h

theorem frameNumberOf_padded (f : Nat) :
    frameNumberOf ("frame_".data ++ fmt05 f ++ ".png".data) = fmt05 f := by
  have h6 : ("frame_".data).length = 6 := by decide
  have htake : ("frame_".data ++ (fmt05 f ++ ".png".data)).take 6 = "frame_".data := by
    rw [← h6, List.take_left]
  have hdrop : ("frame_".data ++ (fmt05 f ++ ".png".data)).drop 6 = fmt05 f ++ ".png".data := by
    rw [← h6, List.drop_left]
  have hpng : ".png".data = '.' :: "png".data := rfl
  have hdigits : (fmt05 f ++ ".png".data).takeWhile Char.isDigit = fmt05 f := by
    rw [hpng]
    exact takeWhile_append_sentinel '.' (by decide) (fmt05 f) "png".data (fmt05_digit f)
  have hne : (fmt05 f).isEmpty = false := by
    have h5 := fmt05_length f
    rcases hemp : fmt05 f with _ | ⟨x, xs⟩
    · rw [hemp] at h5; simp at h5
    · rfl
  rw [frameNumberOf, List.append_assoc, if_pos htake, hdrop, hdigits]
  simp [hne]

theorem cache_key_padded (f : Nat) (p : String) :
    cache_key (String.mk ("frame_".data ++ fmt05 f ++ ".png".data)) p =
      get_cache_key f p := by
  have hdata : (String.mk ("frame_".data ++ fmt05 f ++ ".png".data)).data =
      "frame_".data ++ fmt05 f ++ ".png".data := rfl
  rw [cache_key, get_cache_key, hdata,
    basenameChars_no_slash _ (paddedName_no_slash f), frameNumberOf_padded]

/-- Claim C5: the cache-key derivation is a pure function of the frame id
and the prompt (hence deterministic across repeated calls); for every
frame id `f` and prompt `p` it yields
`frame_{f:05d}_{h}.png` where the frame number is zero-padded to width 5
and `h` is exactly the 8-hex-character prefix of the SHA-256 digest of the
UTF-8 encoded prompt (8 lowercase hex characters); and the path-based
derivation `_cache_key` of the caching client agrees with the numeric
derivation `get_cache_key` of parallel_client on the standard
`frame_{f:05d}.png` input naming. -/
theorem c5_cache_key_deterministic_shape (f : Nat) (p : String) :
    get_cache_key f p = String.mk ("frame_".data ++ fmt05 f ++ '_' ::
      (sha256hexChars (utf8Bytes p)).take 8 ++ ".png".data) ∧
    cache_key (String.mk ("frame_".data ++ fmt05 f ++ ".png".data)) p =
      get_cache_key f p ∧
    ((sha256hexChars (utf8Bytes p)).take 8).length = 8 ∧
    (∀ c ∈ (sha256hexChars (utf8Bytes p)).take 8, c ∈ hexAlphabet) ∧
    5 ≤ (fmt05 f).length ∧
    (∀ c ∈ fmt05 f, c.isDigit = true) := by
  refine ⟨rfl, cache_key_padded f p, ?_, ?_, fmt05_length f, fmt05_digit f⟩
  · rw [List.length_take, sha256hexChars_length]
    omega
  · intro c hc
    exact sha256hexChars_mem (utf8Bytes p) c (List.mem_of_mem_take hc)

/-! ## C10: `clear_cache_except` retains nothing -/

theorem md5Op_length (m : List Nat) (st : List Nat) (i : Nat) (h : st.length = 4) :
    (md5Op m st i).length = 4 := by
  rcases st with _ | ⟨a, _ | ⟨b, _ | ⟨c, _ | ⟨d, _ | ⟨e, t⟩⟩⟩⟩⟩ <;> simp_all [md5Op]

theorem md5Block_length (st block : List Nat) (h : st.length = 4) :
    (md5Block st block).length = 4 := by
  have key : ∀ (l : List Nat) (s : List Nat), s.length = 4 →
      (l.foldl (md5Op (leWords block)) s).length = 4 := by
    intro l
    induction l with
    | nil => intro s hs; simpa
    | cons x xs ih => intro s hs; exact ih _ (md5Op_length _ s x hs)
  have h2 := key (List.range 64) st h
  simp [md5Block, List.length_zip, h, h2]

theorem md5State_length (msg : List Nat) : (md5State msg).length = 4 := by
  have key : ∀ (bs : List (List Nat)) (st : List Nat), st.length = 4 →
      (bs.foldl md5Block st).length = 4 := by
    intro bs
    induction bs with
    | nil => intro st h; simpa
    | cons b bs ih => intro st h; exact ih _ (md5Block_length st b h)
  exact key _ md5Init (by decide)

theorem md5hexChars_length (msg : List Nat) : (md5hexChars msg).length = 32 := by
  rw [md5hexChars, flatMap_const_length 2 hexByte_length,
    flatMap_const_length 4 (leBytes_length 4), md5State_length]

theorem generate_cache_key_length (p : String) : (generate_cache_key p).length = 32 :=
  md5hexChars_length (utf8Bytes p)

theorem pySplit_ne_nil (sep : Char) : ∀ l : List Char, pySplit sep l ≠ [] := by
  intro l
  cases l with
  | nil => simp [pySplit]
  | cons c rest =>
    simp only [pySplit]
    cases h : pySplit sep rest with
    | nil => simp
    | cons p ps => split_ifs <;> simp

theorem pySplit_no_sep (sep : Char) : ∀ l : List Char, (∀ c ∈ l, c ≠ sep) →
    pySplit sep l = [l] := by
  intro l
  induction l with
  | nil => intro h; rfl
  | cons c rest ih =>
    intro h
    have hr : pySplit sep rest = [rest] := ih (fun x hx => h x (by simp [hx]))
    simp only [pySplit, hr]
    rw [if_neg (h c (by simp))]

theorem pySplit_append (sep : Char) : ∀ (l1 l2 : List Char), (∀ c ∈ l1, c ≠ sep) →
    pySplit sep (l1 ++ sep :: l2) = l1 :: pySplit sep l2 := by
  intro l1
  induction l1 with
  | nil =>
    intro l2 h
    simp only [List.nil_append, pySplit]
    cases hp : pySplit sep l2 with
    | nil => exact absurd hp (pySplit_ne_nil sep l2)
    | cons p ps => simp
  | cons c rest ih =>
    intro l2 h
    have hr := ih l2 (fun x hx => h x (by simp [hx]))
    simp only [List.cons_append, pySplit, List.append_eq, hr]
    rw [if_neg (h c (by simp))]

theorem hexAlphabet_ne_underscore : ∀ c ∈ hexAlphabet, c ≠ '_' := by decide

theorem isDigit_ne_underscore {c : Char} (h : c.isDigit = true) : c ≠ '_' := by
  rintro rfl
  exact absurd h (by decide)

/-- The split of a well-formed cache filename on `_` has exactly three
parts, the last being the 8 hex chars plus the `.png` extension. -/
theorem pySplit_cacheName (dchars hchars : List Char)
    (hdig : ∀ c ∈ dchars, c.isDigit = true) (hhex : ∀ c ∈ hchars, c ∈ hexAlphabet) :
    pySplit '_' ("frame".data ++ '_' :: dchars ++ '_' :: (hchars ++ ".png".data)) =
      ["frame".data, dchars, hchars ++ ".png".data] := by
  have hfr : ∀ c ∈ "frame".data, c ≠ '_' := by decide
  have hd : ∀ c ∈ dchars, c ≠ '_' := fun c hc => isDigit_ne_underscore (hdig c hc)
  have hh : ∀ c ∈ hchars ++ ".png".data, c ≠ '_' := by
    intro c hc
    rw [List.mem_append] at hc
    rcases hc with h | h
    · exact hexAlphabet_ne_underscore c (hhex c h)
    · revert c
      decide
  have step1 := pySplit_append '_' "frame".data (dchars ++ '_' :: (hchars ++ ".png".data)) hfr
  have step2 := pySplit_append '_' dchars (hchars ++ ".png".data) hd
  have step3 := pySplit_no_sep '_' (hchars ++ ".png".data) hh
  calc pySplit '_' ("frame".data ++ '_' :: dchars ++ '_' :: (hchars ++ ".png".data))
      = pySplit '_' ("frame".data ++ '_' :: (dchars ++ '_' :: (hchars ++ ".png".data))) := by
        simp [List.append_assoc]
    _ = "frame".data :: pySplit '_' (dchars ++ '_' :: (hchars ++ ".png".data)) := step1
    _ = "frame".data :: dchars :: pySplit '_' (hchars ++ ".png".data) := by rw [step2]
    _ = ["frame".data, dchars, hchars ++ ".png".data] := by rw [step3]

/-- Any well-formed cached frame file is removed: the keep-set entries
are 32-character MD5 digests, the compared filename component is the
8-hex-plus-`.png` tail (12 characters), and the two can never be equal. -/
theorem clearDecision_wellFormed (keys : List String)
    (hkeys : ∀ k ∈ keys, k.length = 32) (fname : String) (hwf : FrameCacheName fname) :
    clearDecision keys fname = .remove := by
  obtain ⟨dchars, hchars, rfl, hdlen, hdig, hhlen, hhex⟩ := hwf
  have hparts := pySplit_cacheName dchars hchars hdig hhex
  have hdata : (String.mk ("frame".data ++ '_' :: dchars ++ '_' ::
      (hchars ++ ".png".data))).data =
      "frame".data ++ '_' :: dchars ++ '_' :: (hchars ++ ".png".data) := rfl
  rw [clearDecision, hdata, hparts]
  have h33 : ¬((["frame".data, dchars, hchars ++ ".png".data] :
      List (List Char)).length < 3) := by simp
  have hlast : (["frame".data, dchars, hchars ++ ".png".data].getLastD []) =
      hchars ++ ".png".data := rfl
  have hlen12 : (String.mk (hchars ++ ".png".data)).length = 12 := by
    show (hchars ++ ".png".data).length = 12
    rw [List.length_append, hhlen]
    rfl
  have hmem : (String.mk (hchars ++ ".png".data)) ∉ keys := by
    intro hmem
    have := hkeys _ hmem
    rw [hlen12] at this
    exact absurd this (by decide)
  have hcont : keys.contains (String.mk (hchars ++ ".png".data)) = false := by
    rcases hc : keys.contains (String.mk (hchars ++ ".png".data)) with _ | _
    · rfl
    · exact absurd (List.elem_iff.mp hc) hmem
  rw [if_neg h33, hlast, hcont]
  rfl

/-- Claim C10: for a non-empty keep list, `clear_cache_except` with
`dry_run=False` removes every regular file named
`frame_{frameNumber:05d}_{hashPrefix:8hex}.png` in the cache directory:
the keep-set it builds consists of 32-character MD5 hex digests of the
full prompt texts, while the compared filename component is the final
underscore-separated part (the 8 hex chars plus `.png`, 12 characters),
so no cached frame file is ever retained. -/
theorem c10_clear_cache_removes_all (prompts : List String)
    (hprompts : prompts ≠ []) :
    (∀ key ∈ prompts.map generate_cache_key, key.length = 32) ∧
    (∀ fname : String, FrameCacheName fname →
      clearDecision (prompts.map generate_cache_key) fname = .remove) ∧
    (∀ (cacheDir : String) (listing : List String),
      (∀ f ∈ listing, FrameCacheName f) →
      clear_cache_except (some cacheDir) prompts false listing = listing) := by
  have hkeys : ∀ key ∈ prompts.map generate_cache_key, key.length = 32 := by
    intro key hk
    rw [List.mem_map] at hk
    obtain ⟨p, _, rfl⟩ := hk
    exact generate_cache_key_length p
  refine ⟨hkeys, fun fname hwf => clearDecision_wellFormed _ hkeys fname hwf, ?_⟩
  intro cacheDir listing hlist
  have hstep : clear_cache_except (some cacheDir) prompts false listing =
      listing.filter (fun fname =>
        decide (clearDecision (prompts.map generate_cache_key) fname =
          FileAction.remove)) := rfl
  rw [hstep, List.filter_eq_self]
  intro f hf
  rw [decide_eq_true_eq]
  exact clearDecision_wellFormed _ hkeys f (hlist f hf)

/-! ## C7: queue dispatch -/

/-- Invariant of a dispatch run: a prefix of the work list has been popped
and attempted in order, the queue holds the remaining items followed by
one stop marker per still-running worker, each delivered stop marker has
retired exactly one worker, and a worker retires only after the items are
exhausted. -/
def DInv (items : List α) (W : Nat) (s : DispatchState α) : Prop :=
  ∃ k, k ≤ items.length ∧
    s.queue = (items.drop k).map some ++ List.replicate s.running none ∧
    s.attempted = items.take k ∧
    s.stopsDelivered = W - s.running ∧
    s.running ≤ W ∧
    (s.running < W → k = items.length)

theorem dInv_init (items : List α) (W : Nat) : DInv items W (initState items W) := by
  refine ⟨0, Nat.zero_le _, ?_, rfl, ?_, le_refl W, ?_⟩
  · simp [initState, mainEnqueueList]
  · simp [initState]
  · intro h; exact absurd h (lt_irrefl W)

theorem dInv_step (items : List α) (W : Nat) (s s' : DispatchState α)
    (hs : DInv items W s) (hstep : DStep α s s') : DInv items W s' := by
  obtain ⟨k, hk, hq, ha, hst, hrW, hkT⟩ := hs
  cases hstep with
  | item it q r a st =>
    simp only at hq ha hst hrW hkT
    have hlt : k < items.length := by
      by_contra hge
      rw [List.drop_eq_nil_of_le (Nat.le_of_not_lt hge)] at hq
      rw [List.replicate_succ] at hq
      simp at hq
    rw [List.drop_eq_getElem_cons hlt, List.map_cons] at hq
    rw [List.cons_append, List.cons.injEq] at hq
    obtain ⟨hit, hq'⟩ := hq
    have hit' : it = items[k] := Option.some.inj hit
    refine ⟨k + 1, by omega, ?_, ?_, ?_, hrW, ?_⟩
    · exact hq'
    · show a ++ [it] = items.take (k + 1)
      rw [ha, hit', List.take_succ, List.getElem?_eq_getElem hlt]
      rfl
    · exact hst
    · intro hlt'
      have := hkT hlt'
      omega
  | stop q r a st =>
    simp only at hq ha hst hrW hkT
    have hkT' : k = items.length := by
      by_contra hne
      have hlt : k < items.length := lt_of_le_of_ne hk hne
      rw [List.drop_eq_getElem_cons hlt, List.map_cons] at hq
      rw [List.cons_append, List.cons.injEq] at hq
      exact Option.noConfusion hq.1
    have hq' : q = List.replicate r none := by
      rw [hkT', List.drop_length] at hq
      rw [List.map_nil, List.nil_append, List.replicate_succ] at hq
      exact List.cons.inj hq |>.2
    refine ⟨k, hk, ?_, ha, ?_, ?_, fun _ => hkT'⟩
    · show q = (items.drop k).map some ++ List.replicate r none
      rw [hkT', List.drop_length, List.map_nil, List.nil_append]
      exact hq'
    · show st + 1 = W - r
      omega
    · show r ≤ W
      omega

theorem dInv_reach (items : List α) (W : Nat) (s : DispatchState α)
    (h : DReach items W s) : DInv items W s := by
  rw [DReach] at h
  induction h with
  | refl => exact dInv_init items W
  | tail hsteps hstep ih => exact dInv_step items W _ _ ih hstep

/-- Claim C7: in `parallel_scene_img2img.main`, every stop marker sits in
the enqueue order strictly after all `T` work items; in any run from the
initial state, once no pool step is possible every worker has been
retired by exactly one of the `W` delivered stop markers, the queue is
fully drained (so `main`'s joins return), and the attempted items are
exactly the enqueued work list — every item attempted exactly once, in
queue order. -/
theorem c7_dispatch_complete (items : List α) (W : Nat)
    (hW : 1 ≤ W) (hWT : W ≤ items.length)
    (s : DispatchState α) (hreach : DReach items W s) (hstuck : Stuck s) :
    s.attempted = items ∧ s.running = 0 ∧ s.stopsDelivered = W ∧ s.queue = [] ∧
    (∀ i, (mainEnqueueList items W)[i]? = some none → items.length ≤ i) := by
  obtain ⟨k, hk, hq, ha, hst, hrW, hkT⟩ := dInv_reach items W s hreach
  obtain ⟨Q, R, A, S⟩ := s
  simp only at hq ha hst hrW hkT
  have hrun0 : R = 0 := by
    by_contra hne
    obtain ⟨r, hr⟩ : ∃ r, R = r + 1 := ⟨R - 1, by omega⟩
    subst hr
    cases hqcase : Q with
    | nil =>
      rw [hqcase] at hq
      have hlen := congrArg List.length hq
      simp at hlen
      omega
    | cons x rest =>
      subst hqcase
      cases x with
      | some it => exact hstuck _ (DStep.item it rest r A S)
      | none => exact hstuck _ (DStep.stop rest r A S)
  subst hrun0
  have hkT' : k = items.length := hkT (by omega)
  subst hkT'
  refine ⟨?_, rfl, ?_, ?_, ?_⟩
  · rw [ha, List.take_length]
  · show S = W
    omega
  · show Q = []
    rw [hq, List.drop_length, List.map_nil, List.nil_append, List.replicate_zero]
  · intro i hi
    by_contra hlt
    have hlt' : i < items.length := Nat.lt_of_not_le hlt
    have hlen : i < (items.map some).length := by
      rw [List.length_map]; exact hlt'
    rw [mainEnqueueList, List.getElem?_append_left hlen, List.getElem?_map,
      List.getElem?_eq_getElem hlt'] at hi
    simp at hi

/-! ## Witnesses -/

set_option maxRecDepth 10000 in
theorem c1_witness :
    (1 ≤ 3) ∧
    cache_key "frames/frame_00042.png" "p" = "frame_00042_148de9c5.png" ∧
    (FS.mk [("frames/frame_00042.png", [9])]).lookup
      ("cache" ++ "/" ++ cache_key "frames/frame_00042.png" "p") = none ∧
    (FS.mk [("frames/frame_00042.png", [9])]).lookup "frames/frame_00042.png" =
      some [9] ∧
    (get_or_run (some "cache") (FS.mk [("frames/frame_00042.png", [9])])
      "frames/frame_00042.png" "p" (fun _ => .ok [1, 2, 3]) 3 (1 / 2)).result =
      .ok [1, 2, 3] ∧
    (get_or_run (some "cache") (FS.mk [("frames/frame_00042.png", [9])])
      "frames/frame_00042.png" "p" (fun _ => .ok [1, 2, 3]) 3 (1 / 2)).remoteAttempts = 1 ∧
    (get_or_run (some "cache")
      (get_or_run (some "cache") (FS.mk [("frames/frame_00042.png", [9])])
        "frames/frame_00042.png" "p" (fun _ => .ok [1, 2, 3]) 3 (1 / 2)).fs
      "frames/frame_00042.png" "p" (fun _ => .error (.remoteFailure 0)) 3 (1 / 2)).result =
      .ok [1, 2, 3] ∧
    (get_or_run (some "cache")
      (get_or_run (some "cache") (FS.mk [("frames/frame_00042.png", [9])])
        "frames/frame_00042.png" "p" (fun _ => .ok [1, 2, 3]) 3 (1 / 2)).fs
      "frames/frame_00042.png" "p" (fun _ => .error (.remoteFailure 0)) 3
      (1 / 2)).remoteAttempts = 0 :=
  ⟨by decide, by decide, by decide, by decide,
   (c1_cache_roundtrip "cache" "frames/frame_00042.png" "p"
     (FS.mk [("frames/frame_00042.png", [9])]) [9] [1, 2, 3]
     (fun _ => .ok [1, 2, 3]) (fun _ => .error (.remoteFailure 0)) 3 (1 / 2)
     (by decide) (by decide) (by decide) rfl).1,
   (c1_cache_roundtrip "cache" "frames/frame_00042.png" "p"
     (FS.mk [("frames/frame_00042.png", [9])]) [9] [1, 2, 3]
     (fun _ => .ok [1, 2, 3]) (fun _ => .error (.remoteFailure 0)) 3 (1 / 2)
     (by decide) (by decide) (by decide) rfl).2.1,
   (c1_cache_roundtrip "cache" "frames/frame_00042.png" "p"
     (FS.mk [("frames/frame_00042.png", [9])]) [9] [1, 2, 3]
     (fun _ => .ok [1, 2, 3]) (fun _ => .error (.remoteFailure 0)) 3 (1 / 2)
     (by decide) (by decide) (by decide) rfl).2.2.2.1,
   (c1_cache_roundtrip "cache" "frames/frame_00042.png" "p"
     (FS.mk [("frames/frame_00042.png", [9])]) [9] [1, 2, 3]
     (fun _ => .ok [1, 2, 3]) (fun _ => .error (.remoteFailure 0)) 3 (1 / 2)
     (by decide) (by decide) (by decide) rfl).2.2.2.2.1⟩

set_option maxRecDepth 10000 in
theorem c2_witness :
    (1 ≤ 3) ∧
    (FS.mk [("frames/frame_00042.png", [9])]).lookup
      ("cache" ++ "/" ++ cache_key "frames/frame_00042.png" "p") = none ∧
    (FS.mk [("frames/frame_00042.png", [9])]).lookup "frames/frame_00042.png" =
      some [9] ∧
    (get_or_run (some "cache") (FS.mk [("frames/frame_00042.png", [9])])
      "frames/frame_00042.png" "p" (fun k => .error (.remoteFailure k)) 3 (1 / 2)).result =
      .error (.remoteFailure 3) ∧
    (get_or_run (some "cache") (FS.mk [("frames/frame_00042.png", [9])])
      "frames/frame_00042.png" "p" (fun k => .error (.remoteFailure k)) 3
      (1 / 2)).remoteAttempts = 3 ∧
    (get_or_run (some "cache") (FS.mk [("frames/frame_00042.png", [9])])
      "frames/frame_00042.png" "p" (fun k => .error (.remoteFailure k)) 3 (1 / 2)).sleeps =
      List.replicate 2 (1 / 2) ∧
    (get_or_run (some "cache") (FS.mk [("frames/frame_00042.png", [9])])
      "frames/frame_00042.png" "p" (fun k => .error (.remoteFailure k)) 3
      (1 / 2)).cacheWrites = 0 :=
  ⟨by decide, by decide, by decide,
   (c2_retry_exhaustion "cache" "frames/frame_00042.png" "p"
     (FS.mk [("frames/frame_00042.png", [9])]) [9]
     (fun k => .error (.remoteFailure k)) (fun k => .remoteFailure k) 3 (1 / 2)
     (by decide) (by decide) (by decide) (fun k _ _ => rfl)).1,
   (c2_retry_exhaustion "cache" "frames/frame_00042.png" "p"
     (FS.mk [("frames/frame_00042.png", [9])]) [9]
     (fun k => .error (.remoteFailure k)) (fun k => .remoteFailure k) 3 (1 / 2)
     (by decide) (by decide) (by decide) (fun k _ _ => rfl)).2.1,
   (c2_retry_exhaustion "cache" "frames/frame_00042.png" "p"
     (FS.mk [("frames/frame_00042.png", [9])]) [9]
     (fun k => .error (.remoteFailure k)) (fun k => .remoteFailure k) 3 (1 / 2)
     (by decide) (by decide) (by decide) (fun k _ _ => rfl)).2.2.1,
   (c2_retry_exhaustion "cache" "frames/frame_00042.png" "p"
     (FS.mk [("frames/frame_00042.png", [9])]) [9]
     (fun k => .error (.remoteFailure k)) (fun k => .remoteFailure k) 3 (1 / 2)
     (by decide) (by decide) (by decide) (fun k _ _ => rfl)).2.2.2.1⟩

theorem c7_witness :
    (1 ≤ 1) ∧ (1 ≤ ([0] : List Nat).length) ∧
    (⟨[], 0, [0], 1⟩ : DispatchState Nat).attempted = [0] ∧
    (⟨[], 0, [0], 1⟩ : DispatchState Nat).running = 0 ∧
    (⟨[], 0, [0], 1⟩ : DispatchState Nat).stopsDelivered = 1 := by
  have hreach : DReach [0] 1 (⟨[], 0, [0], 1⟩ : DispatchState Nat) := by
    have step1 : DStep Nat ⟨[some 0, none], 1, [], 0⟩ ⟨[none], 1, [0], 0⟩ :=
      DStep.item 0 [none] 0 [] 0
    have step2 : DStep Nat ⟨[none], 1, [0], 0⟩ ⟨[], 0, [0], 1⟩ :=
      DStep.stop [] 0 [0] 0
    exact Relation.ReflTransGen.head step1
      (Relation.ReflTransGen.head step2 Relation.ReflTransGen.refl)
  have hstuck : Stuck (⟨[], 0, [0], 1⟩ : DispatchState Nat) := by
    intro s' h
    cases h
  have h := c7_dispatch_complete [0] 1 (by decide) (by decide) _ hreach hstuck
  exact ⟨by decide, by decide, h.1, h.2.1, h.2.2.1⟩

theorem c10_witness :
    ((["x"] : List String) ≠ []) ∧
    FrameCacheName "frame_00042_0123abcd.png" ∧
    clearDecision ((["x"] : List String).map generate_cache_key)
      "frame_00042_0123abcd.png" = .remove := by
  have hwf : FrameCacheName "frame_00042_0123abcd.png" :=
    ⟨"00042".data, "0123abcd".data, by decide, by decide, by decide, by decide, by decide⟩
  exact ⟨by decide, hwf,
    (c10_clear_cache_removes_all ["x"] (by decide)).2.1 "frame_00042_0123abcd.png" hwf⟩

end SdRunpod
